import Mathlib

/-!
Verification development for the blog-agent pipeline repository.

The repository orchestrates a fixed multi-stage LLM pipeline (orchestration.py,
agents.py), executes it and extracts terminal outputs (runner.py), acquires
content from URLs with a specialized YouTube transcript state machine
(tools.py), and exposes a CLI entry point (blog_agent.py).

This file shallowly embeds the pure control flow of those modules:
 - network calls (transcript.fetch, list_transcripts, get_transcript, yt-dlp,
   read_link) are modelled as oracle functions/values supplied by an
   environment record, so each run of the Python code corresponds to one
   choice of environment;
 - raised exceptions are modelled as explicit result constructors
   (rate-limit errors are kept distinct from generic exceptions, mirroring
   the distinct YouTubeRateLimitError class);
 - side effects that the spec talks about (time.sleep durations, which
   network strategies get invoked) are recorded in an explicit event trace.

Definitions keep the source names where Lean allows it.
-/

namespace BlogAgent

/-! ## Generic string helpers (model Python `in`, slicing, joins) -/

/-- Does `hay` start with `needle` (on character lists)? -/
def startsWithChars : List Char → List Char → Bool
  | _, [] => true
  | [], _ :: _ => false
  | a :: as, b :: bs => a == b && startsWithChars as bs

/-- Does `needle` occur as a contiguous substring of `hay` (character lists)?
Models the Python `needle in hay` test on strings. -/
def containsSub : List Char → List Char → Bool
  | [], needle => needle.isEmpty
  | hay@(_ :: t), needle => startsWithChars hay needle || containsSub t needle

/-- Python `needle in hay` for strings. -/
def strContains (hay needle : String) : Bool :=
  containsSub hay.toList needle.toList

/-- Python `s.startswith(pre)`. -/
def pyStartsWith (s pre : String) : Bool :=
  startsWithChars s.data pre.data

/-- Strip leading and trailing whitespace from a character list. -/
def stripChars (l : List Char) : List Char :=
  ((l.dropWhile Char.isWhitespace).reverse.dropWhile Char.isWhitespace).reverse

/-- Python `s.strip()`. -/
def pyStrip (s : String) : String :=
  String.mk (stripChars s.data)

/-- Split a character list on a separator character (Python `str.split(c)`:
the empty input yields one empty field). -/
def splitOnChar (c : Char) : List Char → List (List Char)
  | [] => [[]]
  | a :: rest =>
    match splitOnChar c rest with
    | h :: t => if a = c then [] :: h :: t else (a :: h) :: t
    | [] => if a = c then [[], []] else [[a]]

/-- Python `content.split('\n')`. -/
def pySplitLines (content : String) : List String :=
  (splitOnChar '\n' content.data).map String.mk

/-- Python `s.replace('\n', ' ')`: a single-character pattern and a
single-character replacement, so replacement is a character-wise map. -/
def replaceNewlines (s : String) : String :=
  String.mk (s.data.map (fun c => if c = '\n' then ' ' else c))

/-- Python `l[-n:]`: the trailing window of the last `n` elements
(the whole list when it is shorter than `n`). -/
def lastN (n : Nat) (l : List String) : List String :=
  l.drop (l.length - n)

/-! ## tools.py: `_sanitize_for_adk`

Python: `text.replace("{", "｛").replace("}", "｝")` guarded by a falsy check.
Since each pattern is a single character and each replacement a single
character, one `str.replace` is exactly a character-wise map. -/

/-- Replace curly braces so ADK will not treat them as template variables
(embeds `_sanitize_for_adk` from tools.py; the two chained single-character
`str.replace` calls become two chained character maps). -/
def _sanitize_for_adk (text : String) : String :=
  if text = "" then text
  else String.mk ((text.data.map (fun c => if c = '{' then '｛' else c)).map
    (fun c => if c = '}' then '｝' else c))

/-! ## tools.py: rate-limit detection (`_check_and_raise_rate_limit`) -/

/-- The message of the distinguishable rate-limit failure raised by
`_check_and_raise_rate_limit` in tools.py. -/
def rateLimitMsg : String :=
  "YouTube rate limit hit (429). Please wait and try again later."

/-- Does an error string indicate YouTube rate limiting?  Embeds the test in
`_check_and_raise_rate_limit`: the error string contains `429` or
`Too Many Requests`. -/
def isRateLimitStr (errorStr : String) : Bool :=
  strContains errorStr "429" || strContains errorStr "Too Many Requests"

/-! ## tools.py: subtitle parsing (`_parse_vtt`, `_parse_json3`) -/

/-- Is a (stripped) VTT line discarded?  Embeds the skip condition of
`_parse_vtt`: empty line, the literal WEBVTT header, a timing line
(contains the arrow), or metadata lines. -/
def vttSkip (line : String) : Bool :=
  line = "" || line = "WEBVTT" || strContains line "-->" ||
    pyStartsWith line "Kind:" || pyStartsWith line "Language:"

/-- The accumulator loop of `_parse_vtt`: walk the lines, strip each, skip
header/timing/metadata/empty lines, and skip a line equal to the last kept
line (consecutive-duplicate collapse). -/
def parseVttLoop : List String → List String → List String
  | [], acc => acc
  | l :: rest, acc =>
    if vttSkip (pyStrip l) then parseVttLoop rest acc
    else if acc.getLast? = some (pyStrip l) then parseVttLoop rest acc
    else parseVttLoop rest (acc ++ [pyStrip l])

/-- Parse VTT subtitle content and extract plain text
(embeds `_parse_vtt` from tools.py: split on newlines, run the filtering
loop, join the kept lines with single spaces). -/
def _parse_vtt (content : String) : String :=
  " ".intercalate (parseVttLoop (pySplitLines content) [])

/-- One segment of a JSON3 subtitle event; the `utf8` field may be absent
(Python: the `utf8` key may be missing from the segment dict). -/
structure Json3Seg where
  utf8 : Option String

/-- One JSON3 subtitle event; the `segs` field may be absent
(Python: `event.get` with key `segs` and default `[]`). -/
structure Json3Event where
  segs : Option (List Json3Seg)

/-- A parsed JSON3 subtitle document; the `events` field may be absent
(Python: `data.get` with key `events` and default `[]`). Parsing the raw JSON text is the job
of the external `json` library and is out of the embedding. -/
structure Json3Data where
  events : Option (List Json3Event)

/-- The nested accumulation loops of `_parse_json3`: for each event, for each
segment, append the `utf8` field when present. -/
def json3Parts (d : Json3Data) : List String :=
  (d.events.getD []).foldl
    (fun acc e =>
      (e.segs.getD []).foldl
        (fun acc2 s =>
          match s.utf8 with
          | some t => acc2 ++ [t]
          | none => acc2) acc) []

/-- Parse JSON3 subtitle content and extract plain text (embeds
`_parse_json3` from tools.py: join all utf8 parts with spaces, then replace
newlines with spaces). -/
def _parse_json3 (d : Json3Data) : String :=
  replaceNewlines (" ".intercalate (json3Parts d))

/-! ### Specification-side descriptions of the two parsers
(the claim states the parsers compositionally: filter, collapse duplicates,
join; these definitions follow the words of the spec and are proved equal to
the embedded code). -/

/-- Collapse consecutive duplicate lines, remembering the previously kept
line (`none` initially). -/
def collapseFrom : Option String → List String → List String
  | _, [] => []
  | prev, y :: ys =>
    if prev = some y then collapseFrom prev ys
    else y :: collapseFrom (some y) ys

/-- Collapse runs of consecutive duplicates to a single occurrence. -/
def collapseConsecutive (l : List String) : List String :=
  collapseFrom none l

/-- Spec-side description of the VTT parser: strip every line, drop the
WEBVTT header line, lines containing the timing arrow, `Kind:`/`Language:`
metadata lines and empty lines, collapse consecutive duplicates, and join
the survivors with single spaces. -/
def vttSpecParse (content : String) : String :=
  " ".intercalate (collapseConsecutive
    (((pySplitLines content).map pyStrip).filter (fun l => !vttSkip l)))

/-- Spec-side description of the JSON3 parser: concatenate the `utf8`
fields of the segments of every event. -/
def json3SpecParts (d : Json3Data) : List String :=
  (d.events.getD []).foldr
    (fun e acc => (e.segs.getD []).filterMap (fun s => s.utf8) ++ acc) []

/-- Spec-side description of the JSON3 parser: the `utf8` fields joined with
spaces, embedded newlines replaced by spaces. -/
def json3SpecParse (d : Json3Data) : String :=
  replaceNewlines (" ".intercalate (json3SpecParts d))

/-! ## tools.py: the transcript-acquisition state machine

`_fetch_youtube_transcript` and its helpers.  Network calls are oracles:
each transcript track carries a function from attempt index to the outcome
of `transcript.fetch()` on that attempt (and likewise for
the translate-to-English-then-fetch call), and the environment carries the
outcomes of `list_transcripts`, `get_transcript` per attempt, and the
yt-dlp fallback.  The machine records every `time.sleep` duration (in
seconds; all durations in the source are integral) and every strategy
invocation in an event trace, and threads the Python `errors` list. -/

/-- Outcome of one oracle call that either returns the joined chunk text or
raises an exception (captured as the exception type name and its string). -/
inductive FetchOutcome where
  | ok (text : String)
  | exn (tyName msg : String)
deriving DecidableEq

/-- Observable events of one machine run: sleeps (seconds) and strategy
invocations. -/
inductive Ev where
  | sleep (secs : Nat)
  | listCall
  | fetchCall (lang : String) (attempt : Nat)
  | translateCall (attempt : Nat)
  | getTranscriptCall (attempt : Nat)
  | ytdlpCall
deriving DecidableEq

/-- The `errors` accumulator plus the event trace, threaded through the
machine. -/
structure MachineSt where
  errors : List String
  events : List Ev
deriving DecidableEq

/-- One available transcript track (a Transcript object of
youtube-transcript-api): its metadata plus oracles for the network calls
made on it. -/
structure Track where
  language_code : String
  is_generated : Bool
  is_translatable : Bool
  fetch : Nat → FetchOutcome
  translateFetch : Nat → FetchOutcome

/-- Result of one retry helper: the rate-limit exception, a transcript text
(Python `return text`), or exhaustion of the retries (Python `return None`). -/
inductive TryOut where
  | rate (msg : String)
  | got (text : String)
  | exhausted
deriving DecidableEq

/-- Embeds `_try_fetch_transcript` from tools.py, iterating over the given
attempt indices (the caller passes `List.range max_retries`, the Python
`range(max_retries)`).  Per attempt: exponential-backoff sleep before each
retry, the fetch call, success on non-empty text, error recording,
rate-limit escalation, and a fixed extra sleep for parse-like failures. -/
def tryFetchGo (t : Track) : List Nat → MachineSt → TryOut × MachineSt
  | [], st => (.exhausted, st)
  | attempt :: rest, st =>
    let st1 := if 0 < attempt then
      { st with events := st.events ++ [Ev.sleep (1 * 2 ^ (attempt - 1))] } else st
    let st2 := { st1 with events := st1.events ++ [Ev.fetchCall t.language_code attempt] }
    match t.fetch attempt with
    | .ok text =>
      if pyStrip text ≠ "" then (.got text, st2)
      else tryFetchGo t rest st2
    | .exn ty msg =>
      let st3 := { st2 with errors := st2.errors ++
        [t.language_code ++ " attempt " ++ toString (attempt + 1) ++ ": " ++ ty ++ ": " ++ msg] }
      if isRateLimitStr msg then (.rate rateLimitMsg, st3)
      else
        let st4 := if strContains ty "ParseError" || strContains msg "no element found" then
          { st3 with events := st3.events ++ [Ev.sleep 2] } else st3
        tryFetchGo t rest st4

/-- Embeds `_try_fetch_transcript(transcript, max_retries, errors)`. -/
def _try_fetch_transcript (t : Track) (max_retries : Nat) (st : MachineSt) :
    TryOut × MachineSt :=
  tryFetchGo t (List.range max_retries) st

/-- Embeds `_try_translate_transcript` from tools.py: same retry shape as
the fetch helper but via the translate-to-English-then-fetch call, a different
error-message prefix and no extra parse-error sleep. -/
def tryTranslateGo (t : Track) : List Nat → MachineSt → TryOut × MachineSt
  | [], st => (.exhausted, st)
  | attempt :: rest, st =>
    let st1 := if 0 < attempt then
      { st with events := st.events ++ [Ev.sleep (1 * 2 ^ (attempt - 1))] } else st
    let st2 := { st1 with events := st1.events ++ [Ev.translateCall attempt] }
    match t.translateFetch attempt with
    | .ok text =>
      if pyStrip text ≠ "" then (.got text, st2)
      else tryTranslateGo t rest st2
    | .exn ty msg =>
      let st3 := { st2 with errors := st2.errors ++
        ["translate to en attempt " ++ toString (attempt + 1) ++ ": " ++ ty ++ ": " ++ msg] }
      if isRateLimitStr msg then (.rate rateLimitMsg, st3)
      else tryTranslateGo t rest st3

/-- Embeds `_try_translate_transcript(transcript, max_retries, errors)`. -/
def _try_translate_transcript (t : Track) (max_retries : Nat) (st : MachineSt) :
    TryOut × MachineSt :=
  tryTranslateGo t (List.range max_retries) st

/-- Outcome of the `_fetch_with_ytdlp` fallback at its call site in
`_fetch_youtube_transcript`: it returns extracted text, raises the
rate-limit exception, or raises a generic exception. -/
inductive YtdlpOut where
  | ok (text : String)
  | rate (msg : String)
  | err (msg : String)
deriving DecidableEq

/-- Environment of one `_fetch_youtube_transcript` run: availability flags
and the oracles for the three extraction strategies. -/
structure YTEnv where
  available : Bool
  listResult : Except (String × String) (List Track)
  getTranscript : Nat → FetchOutcome
  ytdlpAvailable : Bool
  ytdlpResult : YtdlpOut

/-- Overall outcome of `_fetch_youtube_transcript`: a returned transcript
text, the rate-limit exception, a generic terminal exception, or the
ImportError for a missing library. -/
inductive YTOut where
  | text (s : String)
  | rate (msg : String)
  | err (msg : String)
  | importErr (msg : String)
deriving DecidableEq

/-- Sort key of the candidate ranking in `_fetch_youtube_transcript`
(Approach 1): 0 before 1 for authored versus generated, then 0 before 1 for
an `en`-prefixed language code versus any other. -/
def sortKey (t : Track) : Nat × Nat :=
  (if t.is_generated then 1 else 0, if pyStartsWith t.language_code "en" then 0 else 1)

/-- Lexicographic less-or-equal on sort keys (Python tuple comparison). -/
def keyLe (a b : Nat × Nat) : Bool :=
  Nat.blt a.1 b.1 || (a.1 == b.1 && Nat.ble a.2 b.2)

/-- Stable insertion of a track into an already ranked list: the track goes
before the first element whose key is not smaller, so enumeration order is
preserved among equal keys (Python `list.sort` is stable). -/
def insertTrack (x : Track) : List Track → List Track
  | [] => [x]
  | y :: ys => if keyLe (sortKey x) (sortKey y) then x :: y :: ys else y :: insertTrack x ys

/-- The stable sort `available.sort(key=...)` of `_fetch_youtube_transcript`. -/
def sortTracks : List Track → List Track
  | [] => []
  | x :: xs => insertTrack x (sortTracks xs)

/-- The direct-fetch loop of Approach 1: for each ranked candidate in order,
try `_try_fetch_transcript`; a truthy result returns immediately, a raised
rate-limit exception propagates, otherwise continue with the next candidate. -/
def fetchCandidates (maxR : Nat) : List Track → MachineSt → TryOut × MachineSt
  | [], st => (.exhausted, st)
  | t :: rest, st =>
    match _try_fetch_transcript t maxR st with
    | (.rate m, st') => (.rate m, st')
    | (.got x, st') => (.got x, st')
    | (.exhausted, st') => fetchCandidates maxR rest st'

/-- The translate loop of Approach 1: for each ranked candidate that is
auto-generated and translatable, try `_try_translate_transcript`. -/
def translateCandidates (maxR : Nat) : List Track → MachineSt → TryOut × MachineSt
  | [], st => (.exhausted, st)
  | t :: rest, st =>
    if t.is_generated && t.is_translatable then
      match _try_translate_transcript t maxR st with
      | (.rate m, st') => (.rate m, st')
      | (.got x, st') => (.got x, st')
      | (.exhausted, st') => translateCandidates maxR rest st'
    else translateCandidates maxR rest st

/-- Approach 2 of `_fetch_youtube_transcript`: the direct
`YouTubeTranscriptApi.get_transcript` loop (base backoff 2.0 seconds,
error prefix `get_transcript attempt`, no parse-error extra sleep). -/
def getTranscriptGo (env : YTEnv) : List Nat → MachineSt → TryOut × MachineSt
  | [], st => (.exhausted, st)
  | attempt :: rest, st =>
    let st1 := if 0 < attempt then
      { st with events := st.events ++ [Ev.sleep (2 * 2 ^ (attempt - 1))] } else st
    let st2 := { st1 with events := st1.events ++ [Ev.getTranscriptCall attempt] }
    match env.getTranscript attempt with
    | .ok text =>
      if pyStrip text ≠ "" then (.got text, st2)
      else getTranscriptGo env rest st2
    | .exn ty msg =>
      let st3 := { st2 with errors := st2.errors ++
        ["get_transcript attempt " ++ toString (attempt + 1) ++ ": " ++ ty ++ ": " ++ msg] }
      if isRateLimitStr msg then (.rate rateLimitMsg, st3)
      else getTranscriptGo env rest st3

/-- Approaches 2 and 3 of `_fetch_youtube_transcript`: the direct
`get_transcript` retry loop, then the yt-dlp fallback (whose generic failure
carries the last 3 API errors plus the yt-dlp error), and otherwise the
final exhaustion failure carrying the last 5 accumulated errors. -/
def approach2and3 (env : YTEnv) (video_id : String) (maxR : Nat) (st : MachineSt) :
    YTOut × MachineSt :=
  match getTranscriptGo env (List.range maxR) st with
  | (.rate m, st') => (.rate m, st')
  | (.got x, st') => (.text x, st')
  | (.exhausted, st') =>
    if env.ytdlpAvailable then
      let st'' := { st' with events := st'.events ++ [Ev.ytdlpCall] }
      match env.ytdlpResult with
      | .ok text => (.text text, st'')
      | .rate m => (.rate m, st'')
      | .err m =>
        (.err ("All methods failed. API errors: " ++ "; ".intercalate (lastN 3 st''.errors) ++
          ". yt-dlp: " ++ m), st'')
    else
      (.err ("Failed to fetch transcript for video " ++ video_id ++ ". Errors: " ++
        "; ".intercalate (lastN 5 st'.errors)), st')

/-- Embeds `_fetch_youtube_transcript(video_id, max_retries=3)` from
tools.py.  Approach 1 (list, rank, fetch each, then translate generated
translatable candidates), then Approach 2 (direct `get_transcript`), then
Approach 3 (yt-dlp), then the exhaustion failure.  An enumeration failure
records a `list_transcripts:` error and falls through to Approach 2. -/
def _fetch_youtube_transcript (env : YTEnv) (video_id : String) (maxR : Nat := 3) :
    YTOut × MachineSt :=
  if env.available = false then
    (.importErr "youtube-transcript-api is not installed. Run: pip install youtube-transcript-api",
      ⟨[], []⟩)
  else
    let st0 : MachineSt := ⟨[], [Ev.listCall]⟩
    match env.listResult with
    | .ok tracks =>
      if tracks.isEmpty then approach2and3 env video_id maxR st0
      else
        match fetchCandidates maxR (sortTracks tracks) st0 with
        | (.rate m, st') => (.rate m, st')
        | (.got x, st') => (.text x, st')
        | (.exhausted, st') =>
          match translateCandidates maxR (sortTracks tracks) st' with
          | (.rate m, st'') => (.rate m, st'')
          | (.got x, st'') => (.text x, st'')
          | (.exhausted, st'') => approach2and3 env video_id maxR st''
    | .error (ty, msg) =>
      approach2and3 env video_id maxR
        ⟨st0.errors ++ ["list_transcripts: " ++ ty ++ ": " ++ msg], st0.events⟩

/-! ## tools.py: `fetch_url_content` and blog_agent.py `main` -/

/-- A Python exception escaping a piece of the pipeline: either the
distinguishable `YouTubeRateLimitError` or any other exception. -/
inductive Exc where
  | rateLimit (msg : String)
  | generic (msg : String)
deriving DecidableEq

/-- The tagged outcome dictionary of `fetch_url_content`: either
`{"status": "success", "content": ..., "url": ...}` or
`{"status": "error", "error_message": ...}`. -/
inductive FetchDict where
  | success (content url : String)
  | error (error_message : String)
deriving DecidableEq

instance {α β : Type} [DecidableEq α] [DecidableEq β] : DecidableEq (Except α β) :=
  fun a b =>
    match a, b with
    | .ok x, .ok y => decidable_of_iff (x = y) (by simp)
    | .error x, .error y => decidable_of_iff (x = y) (by simp)
    | .ok _, .error _ => isFalse (fun h => Except.noConfusion h)
    | .error _, .ok _ => isFalse (fun h => Except.noConfusion h)

/-- Environment of one `fetch_url_content` call.  `is_youtube` and
`video_id` stand for the pure URL classification helpers
`_is_youtube_url(url)` and `_extract_video_id(url)`; `readLink` is the
outcome of the external `read_link` call (content, or a raised exception
message). -/
structure FetchEnv where
  url : String
  is_youtube : Bool
  video_id : Option String
  yt : YTEnv
  readLink : Except String String

/-- Embeds `fetch_url_content` from tools.py.  YouTube URLs go through the
transcript machine; other URLs through `read_link`; both sanitize the
content.  `YouTubeRateLimitError` is re-raised; every other exception is
absorbed into an error-status dictionary. -/
def fetch_url_content (env : FetchEnv) : Except Exc FetchDict :=
  if env.is_youtube then
    match env.video_id with
    | none => .ok (.error ("Could not extract video ID from YouTube URL: " ++ env.url))
    | some vid =>
      match (_fetch_youtube_transcript env.yt vid).1 with
      | .text transcript => .ok (.success (_sanitize_for_adk transcript) env.url)
      | .rate m => .error (.rateLimit m)
      | .err m => .ok (.error ("Failed to fetch URL content: " ++ m))
      | .importErr m => .ok (.error ("Failed to fetch URL content: " ++ m))
  else
    match env.readLink with
    | .ok content => .ok (.success (_sanitize_for_adk content) env.url)
    | .error m => .ok (.error ("Failed to fetch URL content: " ++ m))

/-- A run of `run_blog_agent`, as far as exception flow is concerned: the
content-acquisition stage invokes `fetch_url_content`; a raised exception
propagates out of the whole run (standard Python exception semantics
through the ADK runner and `asyncio.run`), otherwise the rest of the
pipeline (`downstream`) continues from the fetch outcome. -/
def runBlogAgentExc (env : FetchEnv)
    (downstream : FetchDict → Except Exc (String × String)) :
    Except Exc (String × String) :=
  match fetch_url_content env with
  | .error e => .error e
  | .ok d => downstream d

/-- Observable outcome of the `main()` entry point of blog_agent.py. -/
inductive MainOut where
  | exited (code : Nat) (diagnostics : List String)
  | completed (blog description : String)
  | crashed (msg : String)
deriving DecidableEq

/-- Embeds the exception handling of `main()` in blog_agent.py:
`YouTubeRateLimitError` is caught, two dedicated diagnostic lines are
printed, and the process exits with status 1; a successful run continues to
save the post; any other exception is uncaught (interpreter traceback). -/
def mainModel (runResult : Except Exc (String × String)) : MainOut :=
  match runResult with
  | .ok (blog, desc) => .completed blog desc
  | .error (.rateLimit m) =>
    .exited 1 ["\nError: " ++ m,
      "\nYouTube has rate-limited this IP address. Please wait a few hours and try again."]
  | .error (.generic m) => .crashed m

/-! ## runner.py: result extraction of `run_blog_agent`

The events returned by `runner.run_debug` are modelled as an author string
plus the text of each content part (`""` standing for a falsy/absent text,
exactly as Python truthiness treats it). -/

/-- One event of the ADK runner response. -/
structure AdkEvent where
  author : String
  texts : List String

/-- The mutable locals of the extraction loop in `run_blog_agent`. -/
structure RunnerSt where
  all_text_parts : List String
  final_blog : Option String
  link_enhanced_blog : Option String
  blog_writer_blog : Option String
  blog_description : Option String
deriving DecidableEq

/-- Initial extraction state: every local starts as `None` / empty. -/
def runnerInit : RunnerSt := ⟨[], none, none, none, none⟩

/-- Python truthiness of an optional string (None and the empty string are
falsy). -/
def pyTruthy : Option String → Bool
  | none => false
  | some s => s ≠ ""

/-- Python `a or b` on optional strings. -/
def pyOr (a b : Option String) : Option String :=
  if pyTruthy a then a else b

/-- Processing of one content part in `run_blog_agent`: skip falsy texts,
append to `all_text_parts`, then dispatch on the author-name substrings
`Translator` / `LinkEnhancer` / `BlogWriter` / `Description`. -/
def processPart (author : String) (st : RunnerSt) (text : String) : RunnerSt :=
  if text = "" then st
  else
    let st := { st with all_text_parts := st.all_text_parts ++ [text] }
    if strContains author "Translator" then { st with final_blog := some text }
    else if strContains author "LinkEnhancer" then { st with link_enhanced_blog := some text }
    else if strContains author "BlogWriter" then { st with blog_writer_blog := some text }
    else if strContains author "Description" then { st with blog_description := some text }
    else st

/-- The inner `for part in event.content.parts` loop. -/
def processParts (author : String) : List String → RunnerSt → RunnerSt
  | [], st => st
  | tx :: rest, st => processParts author rest (processPart author st tx)

/-- The outer `for event in all_events` loop. -/
def processEvents : List AdkEvent → RunnerSt → RunnerSt
  | [], st => st
  | e :: es, st => processEvents es (processParts e.author e.texts st)

/-- The fixed placeholder returned when no stage produced any text. -/
def noOutputPlaceholder : String :=
  "Blog post generation completed. Please check the console output for details."

/-- Embeds the tail of `run_blog_agent` in runner.py: translator output
first, else link-enhanced output or blog-writer output, else the last
collected text part, else the fixed placeholder; the description is
stripped when truthy and defaulted to the empty string. -/
def extractRunResult (events : List AdkEvent) : String × String :=
  let st := processEvents events runnerInit
  let final1 : Option String :=
    if pyTruthy st.final_blog then st.final_blog
    else pyOr st.link_enhanced_blog st.blog_writer_blog
  let finalBlog : String :=
    if pyTruthy final1 then final1.getD ""
    else
      match st.all_text_parts.getLast? with
      | some tx => tx
      | none => noOutputPlaceholder
  let desc0 : Option String :=
    if pyTruthy st.blog_description then st.blog_description.map pyStrip
    else st.blog_description
  (finalBlog, if pyTruthy desc0 then desc0.getD "" else "")

/-! ## agents.py and orchestration.py: the assembled topology

Agents are modelled by their identity and declared output key; instruction
text and model choice are prompt parameterization, out of the structural
model (spec section 1).  The group combinators are the ADK
`SequentialAgent` / `ParallelAgent` containers. -/

/-- An ADK agent tree: an LLM leaf agent with its output key, or a
Sequential/Parallel container of sub-agents. -/
inductive AdkAgentTree where
  | llmAgent (name : String) (output_key : Option String)
  | sequential (name : String) (sub_agents : List AdkAgentTree)
  | parallel (name : String) (sub_agents : List AdkAgentTree)

/-- Embeds `create_url_storage_agent` (agents.py). -/
def create_url_storage_agent : AdkAgentTree := .llmAgent "URLStorageAgent" (some "original_url")

/-- Embeds `create_url_fetcher_agent` (agents.py); this is the only agent
holding the `fetch_url_content` tool. -/
def create_url_fetcher_agent : AdkAgentTree := .llmAgent "URLFetcherAgent" (some "url_content")

/-- Embeds `create_query_generator_agent` (agents.py). -/
def create_query_generator_agent : AdkAgentTree :=
  .llmAgent "QueryGeneratorAgent" (some "search_queries")

/-- Embeds `create_search_summarize_agent(query_index)` (agents.py). -/
def create_search_summarize_agent (query_index : Nat) : AdkAgentTree :=
  .llmAgent ("SearchSummarizeAgent" ++ toString query_index)
    (some ("summary_" ++ toString query_index))

/-- Embeds `create_blog_writer_agent` (agents.py); the `num_summaries` and
`custom_instruction` parameters shape only the instruction text. -/
def create_blog_writer_agent (num_summaries : Nat := 3)
    (custom_instruction : Option String := none) : AdkAgentTree :=
  .llmAgent "BlogWriterAgent" (some "final_blog_post")

/-- Embeds `create_link_enhancer_agent` (agents.py); it intentionally
reuses the `final_blog_post` output key. -/
def create_link_enhancer_agent : AdkAgentTree := .llmAgent "LinkEnhancerAgent" (some "final_blog_post")

/-- Embeds `create_description_agent` (agents.py). -/
def create_description_agent : AdkAgentTree := .llmAgent "DescriptionAgent" (some "blog_description")

/-- Embeds `create_blog_agent_system` from orchestration.py: the single
top-level SequentialAgent wiring all stages, with the two ParallelAgent
groups. -/
def create_blog_agent_system (custom_instruction : Option String := none) : AdkAgentTree :=
  let url_storage := create_url_storage_agent
  let url_fetcher := create_url_fetcher_agent
  let query_generator := create_query_generator_agent
  let search_summarize_agents := (List.range' 1 3).map create_search_summarize_agent
  let parallel_search_team := AdkAgentTree.parallel "ParallelSearchTeam" search_summarize_agents
  let blog_writer := create_blog_writer_agent 3 custom_instruction
  let link_enhancer := create_link_enhancer_agent
  let description_agent := create_description_agent
  let parallel_final_team :=
    AdkAgentTree.parallel "ParallelFinalTeam" [link_enhancer, description_agent]
  AdkAgentTree.sequential "BlogWritingSystem"
    [url_storage, url_fetcher, query_generator, parallel_search_team, blog_writer,
      parallel_final_team]

/-! ## Specification-side definitions for the remaining claims -/

/-- Is the agent an LLM leaf with the given name? -/
def isLlmNamed (t : AdkAgentTree) (n : String) : Bool :=
  match t with
  | .llmAgent m _ => m == n
  | _ => false

/-- The topology stated by the spec: a single top-level Sequential group
whose members, in order, are the seed-capture stage, the
content-acquisition stage, the query-generation stage, a Parallel group of
exactly 3 enrichment search-and-summarize stages, the synthesis stage, and
a Parallel group of exactly two finishing stages (link integration, then
description generation). -/
def claimedTopology : AdkAgentTree → Bool
  | .sequential _ [s1, s2, s3, s4, s5, s6] =>
    isLlmNamed s1 "URLStorageAgent" && isLlmNamed s2 "URLFetcherAgent" &&
    isLlmNamed s3 "QueryGeneratorAgent" &&
    (match s4 with
     | .parallel _ subs =>
       subs.length == 3 &&
         subs.all (fun a =>
           match a with
           | .llmAgent n _ => pyStartsWith n "SearchSummarizeAgent"
           | _ => false)
     | _ => false) &&
    isLlmNamed s5 "BlogWriterAgent" &&
    (match s6 with
     | .parallel _ [f1, f2] =>
       isLlmNamed f1 "LinkEnhancerAgent" && isLlmNamed f2 "DescriptionAgent"
     | _ => false)
  | _ => false

/-- Does this fetch attempt fail with an ordinary (non-rate-limit)
exception? -/
def failsGenerically (o : FetchOutcome) : Bool :=
  match o with
  | .exn _ msg => !isRateLimitStr msg
  | .ok _ => false

/-- Does this outcome trigger the extra parse-error sleep of
`_try_fetch_transcript`? -/
def parseExtraSleep (o : FetchOutcome) : Bool :=
  match o with
  | .exn ty msg => strContains ty "ParseError" || strContains msg "no element found"
  | .ok _ => false

/-- Spec-side description of the events produced by the fetch-direct retry
loop when attempts `a, a+1, ..., a+j-1` fail and attempt `a+j` succeeds: a
1s-base exponential-backoff sleep of `2^(attempt-1)` seconds before every
retry, the fetch call itself, and a fixed extra 2s sleep after each
parse-like failure. -/
def backoffEvents (t : Track) : Nat → Nat → List Ev
  | a, 0 => (if 0 < a then [Ev.sleep (1 * 2 ^ (a - 1))] else []) ++ [Ev.fetchCall t.language_code a]
  | a, j + 1 =>
    (if 0 < a then [Ev.sleep (1 * 2 ^ (a - 1))] else []) ++ [Ev.fetchCall t.language_code a] ++
      (if parseExtraSleep (t.fetch a) then [Ev.sleep 2] else []) ++ backoffEvents t (a + 1) j

/-- Is an event a fetch call of the direct-fetch strategy? -/
def isFetchCallEv : Ev → Bool
  | .fetchCall _ _ => true
  | _ => false

/-- How many direct fetch calls a trace contains. -/
def countFetchCalls (evs : List Ev) : Nat :=
  (evs.filter isFetchCallEv).length

/-! ## Concrete inputs for witnesses and counterexamples -/

/-- A fetch oracle for tracks whose network calls are never consulted. -/
def dummyFetch : Nat → FetchOutcome := fun _ => FetchOutcome.exn "Exception" "unused"

/-- Candidate `{lang: "fr", generated: true}` of the ranking example. -/
def trFrGen : Track := ⟨"fr", true, true, dummyFetch, dummyFetch⟩

/-- Candidate `{lang: "en", generated: false}` of the ranking example. -/
def trEnAuth : Track := ⟨"en", false, false, dummyFetch, dummyFetch⟩

/-- Candidate `{lang: "en", generated: true}` of the ranking example. -/
def trEnGen : Track := ⟨"en", true, true, dummyFetch, dummyFetch⟩

/-- A track whose first fetch attempt raises an HTTP 429 error. -/
def trackRate : Track :=
  ⟨"en", false, false, fun _ => FetchOutcome.exn "Exception" "HTTP Error 429: Too Many Requests",
    dummyFetch⟩

/-- A transcript environment that hits the rate limit on the very first
direct fetch. -/
def ytEnvRate : YTEnv :=
  ⟨true, .ok [trackRate], dummyFetch, false, .err "unused"⟩

/-- A fetch-call environment for a YouTube URL whose transcript acquisition
hits the rate limit. -/
def fetchEnvRate : FetchEnv :=
  ⟨"https://www.youtube.com/watch?v=vid", true, some "vid", ytEnvRate, .ok "unused"⟩

/-- A transcript environment in which every strategy fails: no tracks are
enumerated, every `get_transcript` attempt raises, and yt-dlp is not
installed. -/
def ytEnvExhausted : YTEnv :=
  ⟨true, .ok [], fun _ => FetchOutcome.exn "ValueError" "nope", false, .err "unused"⟩

/-- The terminal failure message produced by `ytEnvExhausted` for video
`vid` with 3 retries. -/
def exhaustedMsgW : String :=
  "Failed to fetch transcript for video vid. Errors: get_transcript attempt 1: ValueError: nope; get_transcript attempt 2: ValueError: nope; get_transcript attempt 3: ValueError: nope"

/-- A transcript environment whose track enumeration fails and whose direct
`get_transcript` lookup succeeds immediately. -/
def ytEnvEnumFail : YTEnv :=
  ⟨true, .error ("Exception", "boom"), fun _ => FetchOutcome.ok "hello world", false, .err "unused"⟩

/-- A track that fails generically on attempt 0, with a parse-like error on
attempt 1, and succeeds on attempt 2. -/
def trackBackoff : Track :=
  ⟨"en", false, false,
    fun i =>
      if i = 0 then FetchOutcome.exn "ValueError" "bad data"
      else if i = 1 then FetchOutcome.exn "ParseError" "no element found"
      else FetchOutcome.ok "hello",
    dummyFetch⟩

/-- A transcript environment enumerating exactly the `trackBackoff` track. -/
def ytEnvBackoff : YTEnv :=
  ⟨true, .ok [trackBackoff], dummyFetch, false, .err "unused"⟩

/-- A fetch-call environment for an ordinary (non-YouTube) URL whose
fetched content contains curly braces. -/
def fetchEnvBraces : FetchEnv :=
  ⟨"https://example.com/a", false, none, ytEnvExhausted, .ok "a{b}c"⟩

/-- A concrete runner event list: blog-writer draft, link-enhanced post,
description. -/
def eventsW : List AdkEvent :=
  [⟨"URLStorageAgent", ["ORIGINAL_URL: https://example.com/a"]⟩,
   ⟨"BlogWriterAgent", ["draft post"]⟩,
   ⟨"LinkEnhancerAgent", ["linked post"]⟩,
   ⟨"DescriptionAgent", ["a description"]⟩]

/-! # Theorems -/

/-! ## Helper lemmas -/

theorem lastN_suffix (n : Nat) (l : List String) : lastN n l <:+ l :=
  List.drop_suffix _ _

theorem lastN_length_le (n : Nat) (l : List String) : (lastN n l).length ≤ n := by
  simp only [lastN, List.length_drop]
  omega

theorem sanitize_no_braces (s : String) :
    ∀ c ∈ (_sanitize_for_adk s).data, c ≠ '{' ∧ c ≠ '}' := by
  intro c hc
  unfold _sanitize_for_adk at hc
  by_cases hs : s = ""
  · subst hs
    rw [if_pos rfl] at hc
    rw [show String.data "" = [] from rfl] at hc
    exact absurd hc (List.not_mem_nil c)
  · rw [if_neg hs] at hc
    rcases List.mem_map.mp hc with ⟨c1, hc1, rfl⟩
    rcases List.mem_map.mp hc1 with ⟨c0, _, rfl⟩
    by_cases h0 : c0 = '{'
    · subst h0; decide
    · by_cases h1 : c0 = '}'
      · subst h1; decide
      · simp only [if_neg h0, if_neg h1]
        exact ⟨h0, h1⟩

theorem collapseFrom_skip (prev : Option String) (y : String) (ys : List String)
    (h : prev = some y) : collapseFrom prev (y :: ys) = collapseFrom prev ys := by
  simp [collapseFrom, h]

theorem collapseFrom_cons_ne (prev : Option String) (y : String) (ys : List String)
    (h : ¬prev = some y) : collapseFrom prev (y :: ys) = y :: collapseFrom (some y) ys := by
  simp [collapseFrom, h]

theorem getLast?_app_singleton (l : List String) (a : String) :
    (l ++ [a]).getLast? = some a := by
  rw [List.getLast?_append_cons]
  rfl

theorem parseVttLoop_spec (lines : List String) :
    ∀ acc : List String,
      parseVttLoop lines acc =
        acc ++ collapseFrom (acc.getLast?)
          ((lines.map pyStrip).filter (fun l => !vttSkip l)) := by
  induction lines with
  | nil => intro acc; simp [parseVttLoop, collapseFrom]
  | cons l rest ih =>
    intro acc
    simp only [List.map_cons, List.filter_cons]
    cases hskip : vttSkip (pyStrip l)
    · by_cases hdup : acc.getLast? = some (pyStrip l)
      · simp only [parseVttLoop, hskip, Bool.false_eq_true, if_false, if_pos hdup,
          Bool.not_false, if_true, ih]
        rw [collapseFrom_skip _ _ _ hdup]
      · simp only [parseVttLoop, hskip, Bool.false_eq_true, if_false, if_neg hdup,
          Bool.not_false, if_true, ih]
        rw [getLast?_app_singleton, collapseFrom_cons_ne _ _ _ hdup]
        simp [List.append_assoc]
    · simp [parseVttLoop, hskip, ih]

theorem parse_vtt_eq_spec (content : String) : _parse_vtt content = vttSpecParse content := by
  unfold _parse_vtt vttSpecParse collapseConsecutive
  rw [parseVttLoop_spec]
  simp

theorem json3_inner_foldl (segs : List Json3Seg) :
    ∀ acc : List String,
      segs.foldl
        (fun acc2 s =>
          match s.utf8 with
          | some t => acc2 ++ [t]
          | none => acc2) acc = acc ++ segs.filterMap (fun s => s.utf8) := by
  induction segs with
  | nil => intro acc; simp
  | cons s rest ih =>
    intro acc
    cases h : s.utf8 <;> simp [List.foldl_cons, h, ih, List.filterMap_cons]

theorem json3_outer_foldl (evs : List Json3Event) :
    ∀ acc : List String,
      evs.foldl
        (fun acc e =>
          (e.segs.getD []).foldl
            (fun acc2 s =>
              match s.utf8 with
              | some t => acc2 ++ [t]
              | none => acc2) acc) acc =
        acc ++ evs.foldr
          (fun e acc => (e.segs.getD []).filterMap (fun s => s.utf8) ++ acc) [] := by
  induction evs with
  | nil => intro acc; simp
  | cons e rest ih =>
    intro acc
    simp only [List.foldl_cons, List.foldr_cons]
    rw [json3_inner_foldl, ih]
    simp [List.append_assoc]

theorem json3Parts_eq_spec (d : Json3Data) : json3Parts d = json3SpecParts d := by
  unfold json3Parts json3SpecParts
  rw [json3_outer_foldl]
  simp

theorem parse_json3_eq_spec (d : Json3Data) : _parse_json3 d = json3SpecParse d := by
  unfold _parse_json3 json3SpecParse
  rw [json3Parts_eq_spec]

/-! ### Ranking lemmas (stable sort by the candidate key) -/

theorem keyLe_iff (a b : Nat × Nat) :
    keyLe a b = true ↔ (a.1 < b.1 ∨ (a.1 = b.1 ∧ a.2 ≤ b.2)) := by
  simp [keyLe, Nat.blt_eq, Nat.ble_eq, Bool.or_eq_true, Bool.and_eq_true, beq_iff_eq]

theorem keyLe_refl (a : Nat × Nat) : keyLe a a = true := by
  rw [keyLe_iff]; omega

theorem keyLe_total (a b : Nat × Nat) : keyLe a b = true ∨ keyLe b a = true := by
  rw [keyLe_iff, keyLe_iff]; omega

theorem keyLe_trans {a b c : Nat × Nat} (h1 : keyLe a b = true) (h2 : keyLe b c = true) :
    keyLe a c = true := by
  rw [keyLe_iff] at *; omega

theorem mem_insertTrack {z x : Track} {l : List Track} (h : z ∈ insertTrack x l) :
    z = x ∨ z ∈ l := by
  induction l with
  | nil =>
    unfold insertTrack at h
    exact .inl (List.mem_singleton.mp h)
  | cons y ys ih =>
    unfold insertTrack at h
    by_cases hc : keyLe (sortKey x) (sortKey y) = true
    · rw [if_pos hc] at h
      rcases List.mem_cons.mp h with rfl | h2
      · exact .inl rfl
      · exact .inr h2
    · rw [if_neg hc] at h
      rcases List.mem_cons.mp h with rfl | h2
      · exact .inr (List.mem_cons_self _ _)
      · rcases ih h2 with rfl | h3
        · exact .inl rfl
        · exact .inr (List.mem_cons_of_mem _ h3)

theorem pairwise_insertTrack (x : Track) (l : List Track)
    (hl : List.Pairwise (fun a b => keyLe (sortKey a) (sortKey b) = true) l) :
    List.Pairwise (fun a b => keyLe (sortKey a) (sortKey b) = true) (insertTrack x l) := by
  induction l with
  | nil =>
    unfold insertTrack
    exact List.pairwise_singleton _ _
  | cons y ys ih =>
    rcases List.pairwise_cons.mp hl with ⟨hy, hys⟩
    unfold insertTrack
    by_cases hc : keyLe (sortKey x) (sortKey y) = true
    · rw [if_pos hc]
      refine List.pairwise_cons.mpr ⟨?_, hl⟩
      intro z hz
      rcases List.mem_cons.mp hz with rfl | hz2
      · exact hc
      · exact keyLe_trans hc (hy z hz2)
    · rw [if_neg hc]
      refine List.pairwise_cons.mpr ⟨?_, ih hys⟩
      intro z hz
      have hyx : keyLe (sortKey y) (sortKey x) = true :=
        (keyLe_total (sortKey x) (sortKey y)).resolve_left hc
      rcases mem_insertTrack hz with rfl | hz2
      · exact hyx
      · exact hy z hz2

theorem sortTracks_pairwise (l : List Track) :
    List.Pairwise (fun a b => keyLe (sortKey a) (sortKey b) = true) (sortTracks l) := by
  induction l with
  | nil => exact List.Pairwise.nil
  | cons x xs ih => exact pairwise_insertTrack x (sortTracks xs) ih

theorem filter_insertTrack (x : Track) (c : Nat × Nat) (l : List Track) :
    (insertTrack x l).filter (fun t => decide (sortKey t = c)) =
      if sortKey x = c then x :: l.filter (fun t => decide (sortKey t = c))
      else l.filter (fun t => decide (sortKey t = c)) := by
  induction l with
  | nil =>
    unfold insertTrack
    by_cases hx : sortKey x = c <;> simp [List.filter_cons, hx]
  | cons y ys ih =>
    unfold insertTrack
    by_cases hc : keyLe (sortKey x) (sortKey y) = true
    · rw [if_pos hc]
      by_cases hx : sortKey x = c <;> simp [List.filter_cons, hx]
    · rw [if_neg hc]
      by_cases hy : sortKey y = c
      · by_cases hx : sortKey x = c
        · exact absurd (hx ▸ hy ▸ keyLe_refl c) hc
        · simp [List.filter_cons, hy, hx, ih]
      · by_cases hx : sortKey x = c <;> simp [List.filter_cons, hy, hx, ih]

theorem sortTracks_filter (l : List Track) (c : Nat × Nat) :
    (sortTracks l).filter (fun t => decide (sortKey t = c)) =
      l.filter (fun t => decide (sortKey t = c)) := by
  induction l with
  | nil => rfl
  | cons x xs ih =>
    unfold sortTracks
    rw [filter_insertTrack]
    by_cases hx : sortKey x = c <;> simp [List.filter_cons, hx, ih]

/-! ### Runner extraction lemmas -/

theorem pyTruthy_none : pyTruthy none = false := rfl

theorem pyTruthy_some_iff (s : String) : pyTruthy (some s) = true ↔ s ≠ "" := by
  simp [pyTruthy]

theorem runnerInv_processPart (author : String) (st : RunnerSt) (tx : String)
    (hA : strContains author "Translator" = false)
    (h1 : st.final_blog = none)
    (h2 : ∀ s, st.link_enhanced_blog = some s → s ≠ "")
    (h3 : ∀ s, st.blog_writer_blog = some s → s ≠ "")
    (h4 : ∀ s ∈ st.all_text_parts, s ≠ "") :
    (processPart author st tx).final_blog = none ∧
    (∀ s, (processPart author st tx).link_enhanced_blog = some s → s ≠ "") ∧
    (∀ s, (processPart author st tx).blog_writer_blog = some s → s ≠ "") ∧
    (∀ s ∈ (processPart author st tx).all_text_parts, s ≠ "") := by
  unfold processPart
  by_cases htx : tx = ""
  · simp only [if_pos htx]
    exact ⟨h1, h2, h3, h4⟩
  · have h4' : ∀ s ∈ st.all_text_parts ++ [tx], s ≠ "" := by
      intro s hs
      rcases List.mem_append.mp hs with hs | hs
      · exact h4 s hs
      · rw [List.mem_singleton.mp hs]; exact htx
    have hsome : ∀ s, (some tx : Option String) = some s → s ≠ "" := by
      intro s hs
      cases hs
      exact htx
    simp only [if_neg htx, hA, Bool.false_eq_true, if_false]
    by_cases hL : strContains author "LinkEnhancer" = true
    · simp only [hL, eq_self_iff_true, if_true]
      exact ⟨h1, hsome, h3, h4'⟩
    · simp only [hL, if_false]
      by_cases hW : strContains author "BlogWriter" = true
      · simp only [hW, eq_self_iff_true, if_true]
        exact ⟨h1, h2, hsome, h4'⟩
      · simp only [hW, if_false]
        by_cases hD : strContains author "Description" = true
        · simp only [hD, eq_self_iff_true, if_true]
          exact ⟨h1, h2, h3, h4'⟩
        · simp only [hD, if_false]
          exact ⟨h1, h2, h3, h4'⟩

theorem runnerInv_processParts (author : String) (hA : strContains author "Translator" = false) :
    ∀ (texts : List String) (st : RunnerSt),
      st.final_blog = none →
      (∀ s, st.link_enhanced_blog = some s → s ≠ "") →
      (∀ s, st.blog_writer_blog = some s → s ≠ "") →
      (∀ s ∈ st.all_text_parts, s ≠ "") →
      (processParts author texts st).final_blog = none ∧
      (∀ s, (processParts author texts st).link_enhanced_blog = some s → s ≠ "") ∧
      (∀ s, (processParts author texts st).blog_writer_blog = some s → s ≠ "") ∧
      (∀ s ∈ (processParts author texts st).all_text_parts, s ≠ "") := by
  intro texts
  induction texts with
  | nil => intro st h1 h2 h3 h4; exact ⟨h1, h2, h3, h4⟩
  | cons tx rest ih =>
    intro st h1 h2 h3 h4
    have h := runnerInv_processPart author st tx hA h1 h2 h3 h4
    exact ih (processPart author st tx) h.1 h.2.1 h.2.2.1 h.2.2.2

theorem runnerInv_processEvents :
    ∀ (events : List AdkEvent) (st : RunnerSt),
      (∀ e ∈ events, strContains e.author "Translator" = false) →
      st.final_blog = none →
      (∀ s, st.link_enhanced_blog = some s → s ≠ "") →
      (∀ s, st.blog_writer_blog = some s → s ≠ "") →
      (∀ s ∈ st.all_text_parts, s ≠ "") →
      (processEvents events st).final_blog = none ∧
      (∀ s, (processEvents events st).link_enhanced_blog = some s → s ≠ "") ∧
      (∀ s, (processEvents events st).blog_writer_blog = some s → s ≠ "") ∧
      (∀ s ∈ (processEvents events st).all_text_parts, s ≠ "") := by
  intro events
  induction events with
  | nil => intro st _ h1 h2 h3 h4; exact ⟨h1, h2, h3, h4⟩
  | cons e es ih =>
    intro st hT h1 h2 h3 h4
    have hA : strContains e.author "Translator" = false := hT e (List.mem_cons_self _ _)
    have h := runnerInv_processParts e.author hA e.texts st h1 h2 h3 h4
    exact ih (processParts e.author e.texts st)
      (fun e2 he2 => hT e2 (List.mem_cons_of_mem _ he2)) h.1 h.2.1 h.2.2.1 h.2.2.2


theorem pyOr_truthy_left (a b : Option String) (h : pyTruthy a = true) : pyOr a b = a := by
  simp [pyOr, h]

theorem pyOr_falsy_left (a b : Option String) (h : pyTruthy a = false) : pyOr a b = b := by
  simp [pyOr, h]

theorem pyTruthy_getD (a : Option String) (h : pyTruthy a = true) : some (a.getD "") = a := by
  cases a with
  | none => exact absurd h (by simp [pyTruthy])
  | some s => rfl

theorem pyTruthy_getD_ne (a : Option String) (h : pyTruthy a = true) : a.getD "" ≠ "" := by
  cases a with
  | none => exact absurd h (by simp [pyTruthy])
  | some s => simpa [pyTruthy] using h

theorem getLast?_mem_of_eq {l : List String} {tx : String} (hg : l.getLast? = some tx) :
    tx ∈ l := by
  rcases List.mem_getLast?_eq_getLast (Option.mem_def.mpr hg) with ⟨hne, rfl⟩
  exact List.getLast_mem hne

/-! ### Transcript-machine lemmas -/

theorem tryFetchGo_scenario (t : Track) (text : String) (htext : pyStrip text ≠ "") :
    ∀ (j a k : Nat) (st : MachineSt), j < k →
      (∀ i, i < j → failsGenerically (t.fetch (a + i)) = true) →
      t.fetch (a + j) = .ok text →
      (tryFetchGo t (List.range' a k) st).1 = .got text ∧
      (tryFetchGo t (List.range' a k) st).2.events = st.events ++ backoffEvents t a j := by
  intro j
  induction j with
  | zero =>
    intro a k st hk hfail hok
    obtain ⟨k', rfl⟩ : ∃ k', k = k' + 1 := ⟨k - 1, by omega⟩
    rw [Nat.add_zero] at hok
    rw [show List.range' a (k' + 1) = a :: List.range' (a + 1) k' from rfl]
    simp only [tryFetchGo, hok]
    rw [if_pos htext]
    refine ⟨rfl, ?_⟩
    by_cases ha : 0 < a
    · simp only [if_pos ha, backoffEvents, List.append_assoc]
    · simp only [if_neg ha, backoffEvents]
      simp
  | succ j' ih =>
    intro a k st hk hfail hok
    obtain ⟨k', rfl⟩ : ∃ k', k = k' + 1 := ⟨k - 1, by omega⟩
    have h0 : failsGenerically (t.fetch a) = true := by
      have := hfail 0 (by omega)
      rwa [Nat.add_zero] at this
    rcases hfa : t.fetch a with txt | ⟨ty, emsg⟩
    · rw [hfa] at h0
      simp [failsGenerically] at h0
    · rw [hfa] at h0
      have hnr : isRateLimitStr emsg = false := by
        simpa [failsGenerically] using h0
      rw [show List.range' a (k' + 1) = a :: List.range' (a + 1) k' from rfl]
      simp only [tryFetchGo, hfa]
      rw [if_neg (by simp [hnr])]
      have hfail' : ∀ i, i < j' → failsGenerically (t.fetch (a + 1 + i)) = true := by
        intro i hi
        have := hfail (i + 1) (by omega)
        rwa [show a + (i + 1) = a + 1 + i by omega] at this
      have hok' : t.fetch (a + 1 + j') = .ok text := by
        rwa [show a + 1 + j' = a + (j' + 1) by omega]
      refine ⟨(ih (a + 1) k' _ (by omega) hfail' hok').1, ?_⟩
      rw [(ih (a + 1) k' _ (by omega) hfail' hok').2]
      simp only [backoffEvents, parseExtraSleep, hfa]
      by_cases ha : 0 < a <;>
        by_cases hp : (strContains ty "ParseError" || strContains emsg "no element found") = true <;>
        simp [ha, hp, List.append_assoc]

theorem countFetchCalls_append (l1 l2 : List Ev) :
    countFetchCalls (l1 ++ l2) = countFetchCalls l1 + countFetchCalls l2 := by
  simp [countFetchCalls, List.filter_append]

theorem tryFetchGo_fetchCalls_le (t : Track) :
    ∀ (attempts : List Nat) (st : MachineSt),
      countFetchCalls (tryFetchGo t attempts st).2.events ≤
        countFetchCalls st.events + attempts.length := by
  intro attempts
  induction attempts with
  | nil => intro st; simp [tryFetchGo]
  | cons a rest ih =>
    intro st
    simp only [tryFetchGo]
    cases hfa : t.fetch a with
    | ok txt =>
      simp only []
      by_cases hne : pyStrip txt ≠ ""
      · rw [if_pos hne]
        by_cases ha : 0 < a <;>
          simp [ha, countFetchCalls_append, countFetchCalls, isFetchCallEv, List.filter] <;>
          omega
      · rw [if_neg hne]
        refine le_trans (ih _) ?_
        by_cases ha : 0 < a <;>
          simp [ha, countFetchCalls_append, countFetchCalls, isFetchCallEv, List.filter] <;>
          omega
    | exn ty emsg =>
      simp only []
      by_cases hr : isRateLimitStr emsg = true
      · rw [if_pos hr]
        by_cases ha : 0 < a <;>
          simp [ha, countFetchCalls_append, countFetchCalls, isFetchCallEv, List.filter] <;>
          omega
      · rw [if_neg hr]
        refine le_trans (ih _) ?_
        by_cases ha : 0 < a <;>
          by_cases hp : (strContains ty "ParseError" || strContains emsg "no element found") = true <;>
          simp [ha, hp, countFetchCalls_append, countFetchCalls, isFetchCallEv, List.filter] <;>
          omega

theorem backoffEvents_shape (t : Track) :
    ∀ (j a : Nat), ∀ e ∈ backoffEvents t a j, isFetchCallEv e = true ∨ ∃ s, e = Ev.sleep s := by
  intro j
  induction j with
  | zero =>
    intro a e he
    simp only [backoffEvents] at he
    rcases List.mem_append.mp he with he | he
    · by_cases ha : 0 < a
      · rw [if_pos ha] at he
        exact .inr ⟨_, List.mem_singleton.mp he⟩
      · rw [if_neg ha] at he
        exact absurd he (List.not_mem_nil e)
    · rw [List.mem_singleton.mp he]
      exact .inl rfl
  | succ j' ih =>
    intro a e he
    simp only [backoffEvents, List.append_assoc] at he
    rcases List.mem_append.mp he with he | he
    · by_cases ha : 0 < a
      · rw [if_pos ha] at he
        exact .inr ⟨_, List.mem_singleton.mp he⟩
      · rw [if_neg ha] at he
        exact absurd he (List.not_mem_nil e)
    · rcases List.mem_append.mp he with he | he
      · rw [List.mem_singleton.mp he]
        exact .inl rfl
      · rcases List.mem_append.mp he with he | he
        · by_cases hp : parseExtraSleep (t.fetch a) = true
          · rw [if_pos hp] at he
            exact .inr ⟨_, List.mem_singleton.mp he⟩
          · rw [if_neg hp] at he
            exact absurd he (List.not_mem_nil e)
        · exact ih (a + 1) e he

theorem countFetchCalls_nil : countFetchCalls [] = 0 := rfl

theorem countFetchCalls_cons (e : Ev) (l : List Ev) :
    countFetchCalls (e :: l) = (if isFetchCallEv e then 1 else 0) + countFetchCalls l := by
  simp only [countFetchCalls, List.filter_cons]
  by_cases h : isFetchCallEv e = true <;> simp [h] <;> omega

theorem backoffEvents_fetchCalls (t : Track) :
    ∀ (j a : Nat), countFetchCalls (backoffEvents t a j) = j + 1 := by
  intro j
  induction j with
  | zero =>
    intro a
    by_cases ha : 0 < a <;>
      simp [backoffEvents, ha, countFetchCalls_append, countFetchCalls_cons,
        countFetchCalls_nil, isFetchCallEv]
  | succ j' ih =>
    intro a
    by_cases ha : 0 < a <;> by_cases hp : parseExtraSleep (t.fetch a) = true <;>
      simp [backoffEvents, ha, hp, countFetchCalls_append, countFetchCalls_cons,
        countFetchCalls_nil, isFetchCallEv, ih (a + 1)]
    all_goals omega

theorem fetchCandidates_head_got (maxR : Nat) (t : Track) (rest : List Track) (st : MachineSt)
    (text : String) (h1 : (_try_fetch_transcript t maxR st).1 = .got text) :
    fetchCandidates maxR (t :: rest) st = (.got text, (_try_fetch_transcript t maxR st).2) := by
  unfold fetchCandidates
  rcases hres : _try_fetch_transcript t maxR st with ⟨out, st'⟩
  rw [hres] at h1
  simp only at h1
  subst h1
  simp [hres]

theorem machine_first_candidate_got (env : YTEnv) (vid : String) (maxR : Nat)
    (tracks rest : List Track) (t : Track) (text : String)
    (hAv : env.available = true) (hL : env.listResult = .ok tracks)
    (hne : tracks.isEmpty = false) (hsort : sortTracks tracks = t :: rest)
    (h1 : (_try_fetch_transcript t maxR ⟨[], [Ev.listCall]⟩).1 = .got text) :
    _fetch_youtube_transcript env vid maxR =
      (.text text, (_try_fetch_transcript t maxR ⟨[], [Ev.listCall]⟩).2) := by
  unfold _fetch_youtube_transcript
  rw [hAv, if_neg (by simp)]
  simp only [hL]
  rw [hne]
  simp only [Bool.false_eq_true, if_false, hsort]
  rw [fetchCandidates_head_got maxR t rest _ text h1]

theorem getTranscriptGo_extends (env : YTEnv) :
    ∀ (attempts : List Nat) (st : MachineSt),
      ∃ te ee, (getTranscriptGo env attempts st).2.events = st.events ++ te ∧
        (getTranscriptGo env attempts st).2.errors = st.errors ++ ee ∧
        (∀ i, Ev.translateCall i ∉ te) := by
  intro attempts
  induction attempts with
  | nil =>
    intro st
    exact ⟨[], [], by simp [getTranscriptGo], by simp [getTranscriptGo], by simp⟩
  | cons a rest ih =>
    intro st
    simp only [getTranscriptGo]
    cases hfa : env.getTranscript a with
    | ok txt =>
      simp only []
      by_cases hne : pyStrip txt ≠ ""
      · rw [if_pos hne]
        refine ⟨(if 0 < a then [Ev.sleep (2 * 2 ^ (a - 1))] else []) ++
          [Ev.getTranscriptCall a], [], ?_, ?_, ?_⟩
        · by_cases ha : 0 < a <;> simp [ha, List.append_assoc]
        · by_cases ha : 0 < a <;> simp [ha]
        · intro i
          by_cases ha : 0 < a <;> simp [ha]
      · rw [if_neg hne]
        obtain ⟨te, ee, h1, h2, h3⟩ := ih _
        refine ⟨(if 0 < a then [Ev.sleep (2 * 2 ^ (a - 1))] else []) ++
          [Ev.getTranscriptCall a] ++ te, ee, ?_, ?_, ?_⟩
        · rw [h1]
          by_cases ha : 0 < a <;> simp [ha, List.append_assoc]
        · rw [h2]
          by_cases ha : 0 < a <;> simp [ha]
        · intro i hmem
          rcases List.mem_append.mp hmem with hmem | hmem
          · rcases List.mem_append.mp hmem with hmem | hmem
            · by_cases ha : 0 < a <;> simp [ha] at hmem
            · simp at hmem
          · exact h3 i hmem
    | exn ty emsg =>
      simp only []
      by_cases hr : isRateLimitStr emsg = true
      · rw [if_pos hr]
        refine ⟨(if 0 < a then [Ev.sleep (2 * 2 ^ (a - 1))] else []) ++
          [Ev.getTranscriptCall a],
          ["get_transcript attempt " ++ toString (a + 1) ++ ": " ++ ty ++ ": " ++ emsg],
          ?_, ?_, ?_⟩
        · by_cases ha : 0 < a <;> simp [ha, List.append_assoc]
        · by_cases ha : 0 < a <;> simp [ha]
        · intro i
          by_cases ha : 0 < a <;> simp [ha]
      · rw [if_neg hr]
        obtain ⟨te, ee, h1, h2, h3⟩ := ih _
        refine ⟨(if 0 < a then [Ev.sleep (2 * 2 ^ (a - 1))] else []) ++
          [Ev.getTranscriptCall a] ++ te,
          ["get_transcript attempt " ++ toString (a + 1) ++ ": " ++ ty ++ ": " ++ emsg] ++ ee,
          ?_, ?_, ?_⟩
        · rw [h1]
          by_cases ha : 0 < a <;> simp [ha, List.append_assoc]
        · rw [h2]
          by_cases ha : 0 < a <;> simp [ha]
        · intro i hmem
          rcases List.mem_append.mp hmem with hmem | hmem
          · rcases List.mem_append.mp hmem with hmem | hmem
            · by_cases ha : 0 < a <;> simp [ha] at hmem
            · simp at hmem
          · exact h3 i hmem

theorem getTranscriptGo_zero_first (env : YTEnv) (rest : List Nat) (st : MachineSt) :
    ∃ tail, (getTranscriptGo env (0 :: rest) st).2.events =
      st.events ++ Ev.getTranscriptCall 0 :: tail := by
  simp only [getTranscriptGo, Nat.lt_irrefl, if_false]
  cases hfa : env.getTranscript 0 with
  | ok txt =>
    simp only []
    by_cases hne : pyStrip txt ≠ ""
    · rw [if_pos hne]
      exact ⟨[], by simp⟩
    · rw [if_neg hne]
      obtain ⟨te, ee, h1, h2, h3⟩ := getTranscriptGo_extends env rest _
      refine ⟨te, ?_⟩
      rw [h1]
      simp
  | exn ty emsg =>
    simp only []
    by_cases hr : isRateLimitStr emsg = true
    · rw [if_pos hr]
      exact ⟨[], by simp⟩
    · rw [if_neg hr]
      obtain ⟨te, ee, h1, h2, h3⟩ := getTranscriptGo_extends env rest _
      refine ⟨te, ?_⟩
      rw [h1]
      simp

theorem approach2and3_extends (env : YTEnv) (vid : String) (maxR : Nat) (st : MachineSt) :
    ∃ te ee, (approach2and3 env vid maxR st).2.events = st.events ++ te ∧
      (approach2and3 env vid maxR st).2.errors = st.errors ++ ee ∧
      (∀ i, Ev.translateCall i ∉ te) ∧
      (0 < maxR → ∃ tail, te = Ev.getTranscriptCall 0 :: tail) := by
  unfold approach2and3
  obtain ⟨te, ee, h1, h2, h3⟩ := getTranscriptGo_extends env (List.range maxR) st
  have hfirst : 0 < maxR →
      ∃ tail, (getTranscriptGo env (List.range maxR) st).2.events =
        st.events ++ Ev.getTranscriptCall 0 :: tail := by
    intro hR
    obtain ⟨k, rfl⟩ : ∃ k, maxR = k + 1 := ⟨maxR - 1, by omega⟩
    rw [List.range_eq_range',
      show List.range' 0 (k + 1) = 0 :: List.range' 1 k from rfl]
    exact getTranscriptGo_zero_first env _ st
  rcases hgo : getTranscriptGo env (List.range maxR) st with ⟨out, st'⟩
  rw [hgo] at h1 h2 hfirst
  simp only [] at h1 h2 hfirst
  have hte : 0 < maxR → ∃ tail, te = Ev.getTranscriptCall 0 :: tail := by
    intro hR
    obtain ⟨tail, htail⟩ := hfirst hR
    rw [h1] at htail
    exact ⟨tail, List.append_cancel_left htail⟩
  cases out with
  | rate m => exact ⟨te, ee, h1, h2, h3, hte⟩
  | got x => exact ⟨te, ee, h1, h2, h3, hte⟩
  | exhausted =>
    simp only []
    by_cases hd : env.ytdlpAvailable = true
    · rw [if_pos hd]
      cases hr : env.ytdlpResult with
      | ok text =>
        refine ⟨te ++ [Ev.ytdlpCall], ee, by simp [h1, List.append_assoc], by simp [h2], ?_, ?_⟩
        · intro i hmem
          rcases List.mem_append.mp hmem with hmem | hmem
          · exact h3 i hmem
          · simp at hmem
        · intro hR
          obtain ⟨tail, rfl⟩ := hte hR
          exact ⟨tail ++ [Ev.ytdlpCall], by simp⟩
      | rate m =>
        refine ⟨te ++ [Ev.ytdlpCall], ee, by simp [h1, List.append_assoc], by simp [h2], ?_, ?_⟩
        · intro i hmem
          rcases List.mem_append.mp hmem with hmem | hmem
          · exact h3 i hmem
          · simp at hmem
        · intro hR
          obtain ⟨tail, rfl⟩ := hte hR
          exact ⟨tail ++ [Ev.ytdlpCall], by simp⟩
      | err m =>
        refine ⟨te ++ [Ev.ytdlpCall], ee, by simp [h1, List.append_assoc], by simp [h2], ?_, ?_⟩
        · intro i hmem
          rcases List.mem_append.mp hmem with hmem | hmem
          · exact h3 i hmem
          · simp at hmem
        · intro hR
          obtain ⟨tail, rfl⟩ := hte hR
          exact ⟨tail ++ [Ev.ytdlpCall], by simp⟩
    · rw [if_neg hd]
      exact ⟨te, ee, h1, h2, h3, hte⟩

theorem approach2and3_err (env : YTEnv) (vid : String) (maxR : Nat) (st : MachineSt)
    (msg : String) (h : (approach2and3 env vid maxR st).1 = .err msg) :
    (env.ytdlpAvailable = false →
      msg = "Failed to fetch transcript for video " ++ vid ++ ". Errors: " ++
        "; ".intercalate (lastN 5 (approach2and3 env vid maxR st).2.errors)) ∧
    (env.ytdlpAvailable = true →
      ∃ m, env.ytdlpResult = .err m ∧
        msg = "All methods failed. API errors: " ++
          "; ".intercalate (lastN 3 (approach2and3 env vid maxR st).2.errors) ++
          ". yt-dlp: " ++ m) := by
  unfold approach2and3 at h ⊢
  rcases hgo : getTranscriptGo env (List.range maxR) st with ⟨out, st'⟩
  rw [hgo] at h
  cases out with
  | rate m => simp at h
  | got x => simp at h
  | exhausted =>
    simp only [] at h ⊢
    by_cases hd : env.ytdlpAvailable = true
    · rw [if_pos hd] at h ⊢
      cases hr : env.ytdlpResult with
      | ok text => rw [hr] at h; exact YTOut.noConfusion h
      | rate m => rw [hr] at h; exact YTOut.noConfusion h
      | err m =>
        rw [hr] at h
        exact ⟨fun hc => absurd hd (by simp [hc]), fun _ => ⟨m, rfl, (YTOut.err.inj h).symm⟩⟩
    · rw [if_neg hd] at h ⊢
      exact ⟨fun _ => (YTOut.err.inj h).symm, fun hc => absurd hc hd⟩

/-! ## Claim theorems -/

/-- C4: candidate ranking sorts authored (non-generated) tracks before
auto-generated ones and English-language-code tracks before others within
each class (the result is ordered by the sort key), and otherwise preserves
enumeration order (stability: restricting to any fixed key value yields
exactly the original enumeration subsequence); in particular, for
candidates [fr/generated, en/authored, en/generated] the ranked order is
[en/authored, en/generated, fr/generated]. -/
theorem transcript_ranking_correct :
    ((sortTracks [trFrGen, trEnAuth, trEnGen]).map
        (fun t => (t.language_code, t.is_generated)) =
      [("en", false), ("en", true), ("fr", true)]) ∧
    (∀ l : List Track,
      List.Pairwise (fun a b => keyLe (sortKey a) (sortKey b) = true) (sortTracks l)) ∧
    (∀ (l : List Track) (c : Nat × Nat),
      (sortTracks l).filter (fun t => decide (sortKey t = c)) =
        l.filter (fun t => decide (sortKey t = c))) :=
  ⟨by decide, sortTracks_pairwise, sortTracks_filter⟩

/-- C9: the assembled pipeline is a single top-level Sequential group whose
members in order are the seed-capture (URL-storage) stage, the
content-acquisition (URL-fetcher) stage, the query-generation stage, a
Parallel group of exactly 3 enrichment search-and-summarize stages, the
synthesis (blog-writer) stage, and a Parallel group of exactly two
finishing stages (link integration and description generation) — for every
value of the custom-instruction parameter. -/
theorem blog_agent_system_topology :
    ∀ custom_instruction : Option String,
      claimedTopology (create_blog_agent_system custom_instruction) = true := by
  intro custom_instruction
  rfl

/-- C5: the timed-text (VTT) parser agrees everywhere with its
specification (strip lines; drop the WEBVTT header line, timing lines
containing the arrow, `Kind:`/`Language:` metadata lines and empty lines;
collapse consecutive duplicates; join with single spaces), and the JSON
event parser agrees everywhere with its specification (concatenate every
utf8 fields of the segments of every event joined with spaces, newlines replaced by
spaces); additionally the round-trip example of the spec holds. -/
theorem subtitle_parsers_meet_spec :
    (∀ content : String, _parse_vtt content = vttSpecParse content) ∧
    (∀ d : Json3Data, _parse_json3 d = json3SpecParse d) ∧
    _parse_vtt
        "WEBVTT\nKind: captions\nLanguage: en\n\n00:00:01.000 --> 00:00:02.000\nHello world\nHello world\n\n00:00:02.000 --> 00:00:03.000\nBye" =
      "Hello world Bye" :=
  ⟨parse_vtt_eq_spec, parse_json3_eq_spec, by decide⟩

/-- C10: whenever `fetch_url_content` returns a success-status dictionary —
on the video-transcript path as well as the generic fetch path — the
returned content contains no ASCII curly-brace characters: each has been
replaced by its fullwidth counterpart by the sanitizer. -/
theorem fetch_success_content_has_no_braces (env : FetchEnv) (c u : String)
    (h : fetch_url_content env = .ok (.success c u)) :
    ∀ ch ∈ c.data, ch ≠ '{' ∧ ch ≠ '}' := by
  unfold fetch_url_content at h
  split at h
  · split at h
    · simp at h
    · split at h
      · rename_i transcript heq
        simp only [Except.ok.injEq, FetchDict.success.injEq] at h
        rcases h with ⟨rfl, -⟩
        exact sanitize_no_braces _
      · simp at h
      · simp at h
      · simp at h
  · split at h
    · rename_i content heq
      simp only [Except.ok.injEq, FetchDict.success.injEq] at h
      rcases h with ⟨rfl, -⟩
      exact sanitize_no_braces _
    · simp at h

/-- C10 witness: a concrete non-YouTube fetch whose raw content `a{b}c`
comes back with both braces replaced by fullwidth characters. -/
theorem fetch_success_content_has_no_braces_witness :
    fetch_url_content fetchEnvBraces = .ok (.success "a｛b｝c" "https://example.com/a") ∧
    ∀ ch ∈ ("a｛b｝c" : String).data, ch ≠ '{' ∧ ch ≠ '}' :=
  ⟨by decide, fetch_success_content_has_no_braces fetchEnvBraces "a｛b｝c"
    "https://example.com/a" (by decide)⟩

/-- C2: every call of `fetch_url_content` yields either a success-status
dictionary carrying the content and the input URL, or an error-status
dictionary carrying an error message; ordinary fetch failures never escape
as exceptions, and the only exception that can escape is the designated
rate-limit failure. -/
theorem fetch_url_content_shape (env : FetchEnv) :
    ((∃ c, fetch_url_content env = .ok (.success c env.url)) ∨
      (∃ m, fetch_url_content env = .ok (.error m)) ∨
      (∃ m, fetch_url_content env = .error (.rateLimit m))) ∧
    ∀ m, fetch_url_content env ≠ .error (.generic m) := by
  constructor
  · unfold fetch_url_content
    split
    · split
      · exact .inr (.inl ⟨_, rfl⟩)
      · split
        · exact .inl ⟨_, rfl⟩
        · exact .inr (.inr ⟨_, rfl⟩)
        · exact .inr (.inl ⟨_, rfl⟩)
        · exact .inr (.inl ⟨_, rfl⟩)
    · split
      · exact .inl ⟨_, rfl⟩
      · exact .inr (.inl ⟨_, rfl⟩)
  · intro m h
    unfold fetch_url_content at h
    split at h
    · split at h
      · simp at h
      · split at h <;> simp at h
    · split at h <;> simp at h

/-- C1: when the transcript machine raises the distinguishable rate-limit
failure, `fetch_url_content` re-raises it un-absorbed (no error-status
dictionary, no placeholder), the whole run aborts regardless of every later
pipeline stage, and `main` reports the two dedicated rate-limit diagnostic
lines and terminates with exit status 1 — an outcome no generic failure
produces (generic failures surface as an uncaught crash, not this
diagnostic). -/
theorem rate_limit_aborts_run (env : FetchEnv) (vid m : String)
    (hyt : env.is_youtube = true) (hvid : env.video_id = some vid)
    (hrate : (_fetch_youtube_transcript env.yt vid).1 = .rate m) :
    fetch_url_content env = .error (.rateLimit m) ∧
    (∀ downstream, runBlogAgentExc env downstream = .error (.rateLimit m)) ∧
    (∀ downstream, mainModel (runBlogAgentExc env downstream) =
      .exited 1 ["\nError: " ++ m,
        "\nYouTube has rate-limited this IP address. Please wait a few hours and try again."]) ∧
    (∀ g, mainModel (.error (.generic g)) = .crashed g) ∧
    (∀ g code diags, MainOut.crashed g ≠ MainOut.exited code diags) := by
  have hfetch : fetch_url_content env = .error (.rateLimit m) := by
    unfold fetch_url_content
    rw [if_pos hyt, hvid]
    simp only [hrate]
  refine ⟨hfetch, ?_, ?_, ?_, ?_⟩
  · intro downstream
    unfold runBlogAgentExc
    rw [hfetch]
  · intro downstream
    unfold runBlogAgentExc
    rw [hfetch]
    rfl
  · intro g
    rfl
  · intro g code diags h
    exact MainOut.noConfusion h

/-- C1 witness: a concrete YouTube fetch environment whose first transcript
fetch attempt raises an HTTP 429 error; the rate-limit failure escapes
`fetch_url_content` and drives `main` to the dedicated diagnostic and exit
status 1. -/
theorem rate_limit_aborts_run_witness :
    fetchEnvRate.is_youtube = true ∧ fetchEnvRate.video_id = some "vid" ∧
    (_fetch_youtube_transcript fetchEnvRate.yt "vid").1 = .rate rateLimitMsg ∧
    fetch_url_content fetchEnvRate = .error (.rateLimit rateLimitMsg) ∧
    (∀ downstream, mainModel (runBlogAgentExc fetchEnvRate downstream) =
      .exited 1 ["\nError: " ++ rateLimitMsg,
        "\nYouTube has rate-limited this IP address. Please wait a few hours and try again."]) :=
  ⟨by decide, by decide, by decide,
    (rate_limit_aborts_run fetchEnvRate "vid" rateLimitMsg (by decide) (by decide) (by decide)).1,
    (rate_limit_aborts_run fetchEnvRate "vid" rateLimitMsg (by decide) (by decide) (by decide)).2.2.1⟩

/-- C8: for a ranked candidate whose attempts `0..j-1` fail with ordinary
(non-rate-limit) errors and whose attempt `j < N` fetches non-empty text,
the fetch-direct step returns that text as success; the recorded trace is
exactly the backoff schedule (a `1·2^(attempt-1)`-second sleep before every
retry, plus an extra 2-second sleep after each parse-like failure) with
`j+1 ≤ N` fetch calls; the machine ends there — the result and trace are
independent of all later candidates, the whole machine returns the text and
records no translate/direct-lookup/yt-dlp event; a candidate is attempted
at most N times (N = max_retries, default 3: the machine applied without
the retry argument equals the machine at 3). -/
theorem fetch_direct_retry_backoff_shortcircuit
    (t : Track) (maxR j : Nat) (text : String)
    (hj : j < maxR)
    (hfail : ∀ i, i < j → failsGenerically (t.fetch i) = true)
    (hok : t.fetch j = .ok text) (hne : pyStrip text ≠ "") :
    (∀ st, (_try_fetch_transcript t maxR st).1 = .got text ∧
      (_try_fetch_transcript t maxR st).2.events = st.events ++ backoffEvents t 0 j) ∧
    countFetchCalls (backoffEvents t 0 j) = j + 1 ∧
    (∀ e ∈ backoffEvents t 0 j, isFetchCallEv e = true ∨ ∃ s, e = Ev.sleep s) ∧
    (∀ st rest rest', fetchCandidates maxR (t :: rest) st = fetchCandidates maxR (t :: rest') st) ∧
    (∀ (env : YTEnv) (vid : String) (tracks rest : List Track),
      env.available = true → env.listResult = .ok tracks → tracks.isEmpty = false →
      sortTracks tracks = t :: rest →
      (_fetch_youtube_transcript env vid maxR).1 = .text text ∧
      (_fetch_youtube_transcript env vid maxR).2.events = Ev.listCall :: backoffEvents t 0 j) ∧
    (∀ st, countFetchCalls (_try_fetch_transcript t maxR st).2.events ≤
      countFetchCalls st.events + maxR) ∧
    (∀ (env : YTEnv) (vid : String),
      _fetch_youtube_transcript env vid = _fetch_youtube_transcript env vid 3) := by
  have hfail0 : ∀ i, i < j → failsGenerically (t.fetch (0 + i)) = true := by
    intro i hi
    rw [Nat.zero_add]
    exact hfail i hi
  have hok0 : t.fetch (0 + j) = .ok text := by rw [Nat.zero_add]; exact hok
  have hcore : ∀ st, (_try_fetch_transcript t maxR st).1 = .got text ∧
      (_try_fetch_transcript t maxR st).2.events = st.events ++ backoffEvents t 0 j := by
    intro st
    unfold _try_fetch_transcript
    rw [List.range_eq_range']
    exact tryFetchGo_scenario t text hne j 0 maxR st hj hfail0 hok0
  refine ⟨hcore, backoffEvents_fetchCalls t j 0, backoffEvents_shape t j 0, ?_, ?_, ?_, ?_⟩
  · intro st rest rest'
    rw [fetchCandidates_head_got maxR t rest st text (hcore st).1,
      fetchCandidates_head_got maxR t rest' st text (hcore st).1]
  · intro env vid tracks rest hAv hL hEmp hsort
    rw [machine_first_candidate_got env vid maxR tracks rest t text hAv hL hEmp hsort
      (hcore _).1]
    exact ⟨rfl, (hcore _).2⟩
  · intro st
    unfold _try_fetch_transcript
    refine le_trans (tryFetchGo_fetchCalls_le t (List.range maxR) st) ?_
    rw [List.length_range]
  · intro env vid
    rfl

/-- C8 witness: a concrete track failing generically on attempt 0, with a
parse-like failure on attempt 1, and succeeding on attempt 2 (N = 3); the
trace interleaves the exponential backoff sleeps with the extra 2-second
parse-error sleeps. -/
theorem fetch_direct_retry_backoff_shortcircuit_witness :
    (2 < 3 ∧ (∀ i, i < 2 → failsGenerically (trackBackoff.fetch i) = true) ∧
      trackBackoff.fetch 2 = .ok "hello" ∧ pyStrip "hello" ≠ "") ∧
    (_try_fetch_transcript trackBackoff 3 ⟨[], []⟩).1 = .got "hello" ∧
    (_try_fetch_transcript trackBackoff 3 ⟨[], []⟩).2.events =
      [Ev.fetchCall "en" 0, Ev.sleep 1, Ev.fetchCall "en" 1, Ev.sleep 2, Ev.sleep 2,
        Ev.fetchCall "en" 2] ∧
    (∀ st, (_try_fetch_transcript trackBackoff 3 st).1 = .got "hello" ∧
      (_try_fetch_transcript trackBackoff 3 st).2.events =
        st.events ++ backoffEvents trackBackoff 0 2) :=
  ⟨⟨by decide, by decide, by decide, by decide⟩, by decide, by decide,
    (fetch_direct_retry_backoff_shortcircuit trackBackoff 3 2 "hello" (by decide) (by decide)
      (by decide) (by decide)).1⟩

/-- C6: when the transcript machine raises its terminal generic failure
(every extraction strategy failed to produce non-empty text), the failure
message carries a bounded trailing window of the most recent accumulated
per-attempt error messages: the last 5 accumulated errors when yt-dlp is
unavailable, and the last 3 plus the yt-dlp error when the yt-dlp fallback
itself failed; either window is a suffix of the accumulated error list of
bounded length. -/
theorem exhausted_failure_carries_recent_errors (env : YTEnv) (vid : String) (maxR : Nat)
    (msg : String) (h : (_fetch_youtube_transcript env vid maxR).1 = .err msg) :
    (env.ytdlpAvailable = false →
      msg = "Failed to fetch transcript for video " ++ vid ++ ". Errors: " ++
        "; ".intercalate (lastN 5 (_fetch_youtube_transcript env vid maxR).2.errors)) ∧
    (env.ytdlpAvailable = true →
      ∃ m, env.ytdlpResult = .err m ∧
        msg = "All methods failed. API errors: " ++
          "; ".intercalate (lastN 3 (_fetch_youtube_transcript env vid maxR).2.errors) ++
          ". yt-dlp: " ++ m) ∧
    lastN 5 (_fetch_youtube_transcript env vid maxR).2.errors <:+
      (_fetch_youtube_transcript env vid maxR).2.errors ∧
    (lastN 5 (_fetch_youtube_transcript env vid maxR).2.errors).length ≤ 5 ∧
    lastN 3 (_fetch_youtube_transcript env vid maxR).2.errors <:+
      (_fetch_youtube_transcript env vid maxR).2.errors ∧
    (lastN 3 (_fetch_youtube_transcript env vid maxR).2.errors).length ≤ 3 := by
  have hred : ∃ st0, _fetch_youtube_transcript env vid maxR = approach2and3 env vid maxR st0 := by
    unfold _fetch_youtube_transcript at h ⊢
    by_cases hAv : env.available = false
    · rw [if_pos hAv] at h
      exact YTOut.noConfusion h
    · rw [if_neg hAv] at h ⊢
      rcases hL : env.listResult with ⟨ty, emsg⟩ | tracks
      · exact ⟨_, rfl⟩
      · rw [hL] at h
        simp only [] at h ⊢
        by_cases hEmp : tracks.isEmpty = true
        · rw [if_pos hEmp] at h ⊢
          exact ⟨_, rfl⟩
        · rw [if_neg hEmp] at h ⊢
          rcases hF : fetchCandidates maxR (sortTracks tracks) ⟨[], [Ev.listCall]⟩
            with ⟨out, st'⟩
          try rw [hF] at h
          try rw [hF]
          cases out with
          | rate m => exact YTOut.noConfusion h
          | got x => exact YTOut.noConfusion h
          | exhausted =>
            simp only [] at h ⊢
            rcases hT : translateCandidates maxR (sortTracks tracks) st' with ⟨out2, st''⟩
            try rw [hT] at h
            try rw [hT]
            cases out2 with
            | rate m => exact YTOut.noConfusion h
            | got x => exact YTOut.noConfusion h
            | exhausted => exact ⟨_, rfl⟩
  rcases hred with ⟨st0, heq⟩
  rw [heq] at h ⊢
  obtain ⟨h1, h2⟩ := approach2and3_err env vid maxR st0 msg h
  exact ⟨h1, h2, lastN_suffix _ _, lastN_length_le _ _, lastN_suffix _ _, lastN_length_le _ _⟩

set_option maxRecDepth 8192 in
/-- C6 witness: a concrete environment in which enumeration yields no
tracks, every direct lookup raises a ValueError and yt-dlp is missing; the
terminal failure message carries the last error messages. -/
theorem exhausted_failure_carries_recent_errors_witness :
    (_fetch_youtube_transcript ytEnvExhausted "vid" 3).1 = .err exhaustedMsgW ∧
    ((ytEnvExhausted.ytdlpAvailable = false →
        exhaustedMsgW = "Failed to fetch transcript for video " ++ "vid" ++ ". Errors: " ++
          "; ".intercalate (lastN 5 (_fetch_youtube_transcript ytEnvExhausted "vid" 3).2.errors)) ∧
      (ytEnvExhausted.ytdlpAvailable = true →
        ∃ m, ytEnvExhausted.ytdlpResult = .err m ∧
          exhaustedMsgW = "All methods failed. API errors: " ++
            "; ".intercalate (lastN 3 (_fetch_youtube_transcript ytEnvExhausted "vid" 3).2.errors) ++
            ". yt-dlp: " ++ m) ∧
      lastN 5 (_fetch_youtube_transcript ytEnvExhausted "vid" 3).2.errors <:+
        (_fetch_youtube_transcript ytEnvExhausted "vid" 3).2.errors ∧
      (lastN 5 (_fetch_youtube_transcript ytEnvExhausted "vid" 3).2.errors).length ≤ 5 ∧
      lastN 3 (_fetch_youtube_transcript ytEnvExhausted "vid" 3).2.errors <:+
        (_fetch_youtube_transcript ytEnvExhausted "vid" 3).2.errors ∧
      (lastN 3 (_fetch_youtube_transcript ytEnvExhausted "vid" 3).2.errors).length ≤ 3) :=
  ⟨by decide,
    exhausted_failure_carries_recent_errors ytEnvExhausted "vid" 3 exhaustedMsgW (by decide)⟩

set_option maxRecDepth 8192 in
/-- C7 counterexample: a concrete run in which track enumeration fails; the
machine records the `list_transcripts` error and the only strategy invoked
afterwards is the direct `get_transcript` lookup, which succeeds — no
translate-then-fetch attempt ever happens, refuting the claim that state 4
(Fetch-translated) is the next strategy attempted after an enumeration
failure. -/
theorem enum_failure_skips_translate_counterexample :
    ytEnvEnumFail.listResult = Except.error ("Exception", "boom") ∧
    _fetch_youtube_transcript ytEnvEnumFail "vid" 3 =
      (.text "hello world",
        ⟨["list_transcripts: Exception: boom"], [Ev.listCall, Ev.getTranscriptCall 0]⟩) ∧
    (∀ i, Ev.translateCall i ∉ (_fetch_youtube_transcript ytEnvEnumFail "vid" 3).2.events) := by
  refine ⟨rfl, by decide, ?_⟩
  intro i hmem
  rw [show (_fetch_youtube_transcript ytEnvEnumFail "vid" 3).2.events =
    [Ev.listCall, Ev.getTranscriptCall 0] by decide] at hmem
  simp at hmem

/-- C7 (amended): if enumeration of available transcript tracks fails, the
machine records the `list_transcripts` error and proceeds directly to the
single-lookup fallback (state 5, `get_transcript`) — the translate-then-fetch
state is skipped entirely, because translation candidates only exist when
enumeration succeeded. -/
theorem enum_failure_goes_to_direct_lookup (env : YTEnv) (vid : String) (maxR : Nat)
    (ty emsg : String) (hAv : env.available = true)
    (hL : env.listResult = .error (ty, emsg)) (hR : 0 < maxR) :
    (("list_transcripts: " ++ ty ++ ": " ++ emsg) ∈
      (_fetch_youtube_transcript env vid maxR).2.errors) ∧
    (∀ i, Ev.translateCall i ∉ (_fetch_youtube_transcript env vid maxR).2.events) ∧
    (∃ tail, (_fetch_youtube_transcript env vid maxR).2.events =
      Ev.listCall :: Ev.getTranscriptCall 0 :: tail) := by
  unfold _fetch_youtube_transcript
  rw [hAv, if_neg (by simp)]
  simp only [hL]
  obtain ⟨te, ee, hev, herr, hnt, hfirst⟩ := approach2and3_extends env vid maxR
    ⟨[] ++ ["list_transcripts: " ++ ty ++ ": " ++ emsg], [Ev.listCall]⟩
  refine ⟨?_, ?_, ?_⟩
  · rw [herr]
    simp
  · intro i hmem
    rw [hev] at hmem
    rcases List.mem_append.mp hmem with hmem | hmem
    · simp at hmem
    · exact hnt i hmem
  · obtain ⟨tail, htail⟩ := hfirst hR
    refine ⟨tail, ?_⟩
    rw [hev, htail]
    rfl

set_option maxRecDepth 8192 in
/-- C7 (amended) witness: the concrete enumeration-failure environment
satisfies the amended behaviour. -/
theorem enum_failure_goes_to_direct_lookup_witness :
    (ytEnvEnumFail.available = true ∧
      ytEnvEnumFail.listResult = Except.error ("Exception", "boom") ∧ 0 < 3) ∧
    (("list_transcripts: " ++ "Exception" ++ ": " ++ "boom") ∈
      (_fetch_youtube_transcript ytEnvEnumFail "vid" 3).2.errors) ∧
    (∀ i, Ev.translateCall i ∉ (_fetch_youtube_transcript ytEnvEnumFail "vid" 3).2.events) ∧
    (∃ tail, (_fetch_youtube_transcript ytEnvEnumFail "vid" 3).2.events =
      Ev.listCall :: Ev.getTranscriptCall 0 :: tail) :=
  ⟨⟨by decide, rfl, by decide⟩,
    enum_failure_goes_to_direct_lookup ytEnvEnumFail "vid" 3 "Exception" "boom"
      (by decide) rfl (by decide)⟩

/-- C3: for runs of this pipeline (whose agents never carry the
`Translator` author name), the result extraction prefers the
link-integration stage (LinkEnhancer) output, falls back to the raw output
of the synthesis stage (BlogWriter), then to the last collected textual output
of any stage, and finally to the fixed placeholder string; the returned
document is never the empty string. -/
theorem runner_result_extraction (events : List AdkEvent)
    (hT : ∀ e ∈ events, strContains e.author "Translator" = false) :
    (pyTruthy (processEvents events runnerInit).link_enhanced_blog = true →
      some (extractRunResult events).1 = (processEvents events runnerInit).link_enhanced_blog) ∧
    (pyTruthy (processEvents events runnerInit).link_enhanced_blog = false →
      pyTruthy (processEvents events runnerInit).blog_writer_blog = true →
      some (extractRunResult events).1 = (processEvents events runnerInit).blog_writer_blog) ∧
    (pyTruthy (processEvents events runnerInit).link_enhanced_blog = false →
      pyTruthy (processEvents events runnerInit).blog_writer_blog = false →
      (extractRunResult events).1 =
        (match (processEvents events runnerInit).all_text_parts.getLast? with
          | some tx => tx
          | none => noOutputPlaceholder)) ∧
    (extractRunResult events).1 ≠ "" := by
  obtain ⟨h1, h2, h3, h4⟩ :=
    runnerInv_processEvents events runnerInit hT rfl
      (fun s hs => Option.noConfusion hs) (fun s hs => Option.noConfusion hs)
      (by intro s hs; exact absurd hs (List.not_mem_nil s))
  refine ⟨?_, ?_, ?_, ?_⟩
  · intro hLink
    simp only [extractRunResult, h1, pyTruthy_none, Bool.false_eq_true, if_false]
    rw [pyOr_truthy_left _ _ hLink]
    simp only [hLink, eq_self_iff_true, if_true]
    exact pyTruthy_getD _ hLink
  · intro hLink hW
    simp only [extractRunResult, h1, pyTruthy_none, Bool.false_eq_true, if_false]
    rw [pyOr_falsy_left _ _ hLink]
    simp only [hW, eq_self_iff_true, if_true]
    exact pyTruthy_getD _ hW
  · intro hLink hW
    simp only [extractRunResult, h1, pyTruthy_none, Bool.false_eq_true, if_false]
    rw [pyOr_falsy_left _ _ hLink]
    simp only [hW, Bool.false_eq_true, if_false]
  · simp only [extractRunResult, h1, pyTruthy_none, Bool.false_eq_true, if_false]
    cases hLink : pyTruthy (processEvents events runnerInit).link_enhanced_blog
    · rw [pyOr_falsy_left _ _ hLink]
      cases hW : pyTruthy (processEvents events runnerInit).blog_writer_blog
      · simp only [hW, Bool.false_eq_true, if_false]
        cases hg : (processEvents events runnerInit).all_text_parts.getLast? with
        | some tx =>
          simp only [hg]
          exact h4 tx (getLast?_mem_of_eq hg)
        | none =>
          simp only [hg]
          decide
      · simp only [hW, eq_self_iff_true, if_true]
        exact pyTruthy_getD_ne _ hW
    · rw [pyOr_truthy_left _ _ hLink]
      simp only [hLink, eq_self_iff_true, if_true]
      exact pyTruthy_getD_ne _ hLink

/-- C3 witness: a concrete event sequence with a blog-writer draft, a
link-enhanced post and a description; extraction prefers the link-enhanced
post. -/
theorem runner_result_extraction_witness :
    (∀ e ∈ eventsW, strContains e.author "Translator" = false) ∧
    ((pyTruthy (processEvents eventsW runnerInit).link_enhanced_blog = true →
        some (extractRunResult eventsW).1 =
          (processEvents eventsW runnerInit).link_enhanced_blog) ∧
      (pyTruthy (processEvents eventsW runnerInit).link_enhanced_blog = false →
        pyTruthy (processEvents eventsW runnerInit).blog_writer_blog = true →
        some (extractRunResult eventsW).1 =
          (processEvents eventsW runnerInit).blog_writer_blog) ∧
      (pyTruthy (processEvents eventsW runnerInit).link_enhanced_blog = false →
        pyTruthy (processEvents eventsW runnerInit).blog_writer_blog = false →
        (extractRunResult eventsW).1 =
          (match (processEvents eventsW runnerInit).all_text_parts.getLast? with
            | some tx => tx
            | none => noOutputPlaceholder)) ∧
      (extractRunResult eventsW).1 ≠ "") ∧
    extractRunResult eventsW = ("linked post", "a description") :=
  ⟨by decide, runner_result_extraction eventsW (by decide), by decide⟩

end BlogAgent
